import Mathlib

/-!
# data-aggregation-api: HTTP endpoints, route table and metrics registry

A shallow embedding of

* `internal/api/router/endpoints.go` (the HTTP handlers),
* `internal/api/router/manager.go` (the `DevicesRepository` interface, `Manager`,
  and the route registrations of `Manager.ListenAndServe`),
* `internal/metrics/registry.go` (the Prometheus registry wrappers),

together with the properties of these functions.

Conventions of the embedding:

* a Go `string` and a Go `[]byte` holding text are Lean `String`s;
* a Go `error` is a `GoError` (a sentinel, or an error wrapping another one);
* an `http.ResponseWriter` is an explicit record `ResponseWriter`, and a handler is a
  function on an execution state `Exec` that carries the writer, the published device
  set, the trace of repository calls and the errors sent to the logger.
-/

namespace Router

/-! ## Go errors -/

/-- Go error value: a sentinel (compared by identity), or an error that wraps another
one, as built by `fmt.Errorf` with the `%w` verb. -/
inductive GoError where
  | sentinel (name : String)
  | wrap (msg : String) (inner : GoError)
  deriving DecidableEq

/-- Go `errors.Is`: walks the `Unwrap` chain of `err` and reports whether one of its
links is `target`. -/
def errorsIs : GoError → GoError → Bool
  | .sentinel n, target => decide (GoError.sentinel n = target)
  | .wrap msg inner, target =>
      decide (GoError.wrap msg inner = target) || errorsIs inner target

/-- Sentinel `device.ErrNotFound` of package `internal/convertor/device`, which the
handlers test for with `errors.Is`. -/
def device.ErrNotFound : GoError := .sentinel "device.ErrNotFound"

/-- Modelled from the spec: the `NoReportYet` failure of the report repository
(package `internal/report` is not among the sources): the error of a history query
made before any build has reached the requested state. -/
def report.ErrNoReportYet : GoError := .sentinel "report.NoReportYet"

/-! ## `net/http` response writer -/

/-- Byte strings holding text. -/
abbrev Bytes := String

def contentType : String := "Content-Type"
def applicationJSON : String := "application/json"
def hostnameKey : String := "hostname"
def wildcard : String := "*"

def StatusOK : Nat := 200
def StatusNotFound : Nat := 404
def StatusInternalServerError : Nat := 500

/-- An `http.Header`, as a list of key/value pairs with one entry per key. -/
structure Header where
  entries : List (String × String)
  deriving DecidableEq

/-- Go `Header.Set`: replaces whatever is stored under `key` by the single `value`. -/
def Header.Set (h : Header) (key value : String) : Header :=
  ⟨(key, value) :: h.entries.filter (fun p => p.1 != key)⟩

/-- Go `Header.Get`: the value stored under `key`, or the empty string. -/
def Header.Get (h : Header) (key : String) : String :=
  (h.entries.lookup key).getD ""

/-- State of an `http.ResponseWriter`: `header` is the map returned by `Header()`,
`sent` the copy of it that went on the wire when the status line was written. -/
structure ResponseWriter where
  header : Header
  wroteHeader : Bool
  status : Nat
  sent : Header
  body : Bytes
  deriving DecidableEq

/-- A writer on which nothing has been called yet. -/
def ResponseWriter.new : ResponseWriter :=
  { header := ⟨[]⟩, wroteHeader := false, status := 0, sent := ⟨[]⟩, body := "" }

/-- Go `WriteHeader`: the first call fixes the status code and the headers that are
sent; a later call is ignored. -/
def ResponseWriter.WriteHeader (w : ResponseWriter) (code : Nat) : ResponseWriter :=
  if w.wroteHeader then w
  else { w with wroteHeader := true, status := code, sent := w.header }

/-- Go `bodyAllowedForStatus`: 1xx, 204 and 304 responses carry no body. -/
def bodyAllowedForStatus (status : Nat) : Bool :=
  if 100 ≤ status ∧ status ≤ 199 then false
  else if status = 204 then false
  else if status = 304 then false
  else true

/-- Go `Write`: sends the status line with `200 OK` when `WriteHeader` has not been
called, then appends `data` to the body. -/
def ResponseWriter.Write (w : ResponseWriter) (data : Bytes) : ResponseWriter :=
  let w1 := if w.wroteHeader then w else w.WriteHeader StatusOK
  if bodyAllowedForStatus w1.status then { w1 with body := w1.body ++ data } else w1

/-- What the client receives. -/
structure Response where
  status : Nat
  header : Header
  body : Bytes
  deriving DecidableEq

/-- The response on the wire once the handler has returned: the server sends
`200 OK` when the handler never wrote the status line. -/
def ResponseWriter.finish (w : ResponseWriter) : Response :=
  let w1 := if w.wroteHeader then w else w.WriteHeader StatusOK
  { status := w1.status, header := w1.sent, body := w1.body }

/-! ## `fmt.Fprintf` -/

/-- Go `fmt.Sprintf` for the one verb the handlers use, `%s` with a string operand,
which is replaced by the operand unchanged; every other character of the format is
copied. -/
def sprintfChars : List Char → List String → List Char
  | [], _ => []
  | '%' :: 's' :: rest, a :: args => a.data ++ sprintfChars rest args
  | c :: rest, args => c :: sprintfChars rest args

def Sprintf (format : String) (args : List String) : String :=
  String.mk (sprintfChars format.data args)

/-- Go `fmt.Fprintf(w, format, args...)`: one `Write` of the formatted text. -/
def ResponseWriter.Fprintf (w : ResponseWriter) (format : String) (args : List String) :
    ResponseWriter :=
  w.Write (Sprintf format args)

/-! ## `httprouter` parameters and requests -/

structure Param where
  Key : String
  Value : String
  deriving DecidableEq

abbrev Params := List Param

/-- The `ByName` method of httprouter `Params`: the value of the first parameter whose key is `name`,
or the empty string. -/
def ByName : Params → String → String
  | [], _ => ""
  | p :: ps, name => if p.Key = name then p.Value else ByName ps name

/-- An `*http.Request`; no handler reads it. -/
structure Request where
  method : String
  path : String
  header : Header
  deriving DecidableEq

/-! ## Repositories -/

/-- Modelled from the spec: the `Device` type of package `internal/convertor/device`
is not among the sources; a device has an AFK flag and a configuration document. -/
structure Device where
  afkEnabled : Bool
  config : String
  deriving DecidableEq

/-- The published device set, `map[string]*device.Device`, keyed by hostname. -/
abbrev DeviceSet := List (String × Device)

/-- Interface `DevicesRepository` of `manager.go`. The state of the repository is the
published device set; `Set` returns the new state, the four JSON readers are functions
of the current state. -/
structure DevicesRepository where
  Set : DeviceSet → DeviceSet → DeviceSet
  ListAFKEnabledDevicesJSON : DeviceSet → Except GoError Bytes
  IsAFKEnabledJSON : DeviceSet → String → Except GoError Bytes
  GetAllDevicesOpenConfigJSON : DeviceSet → Except GoError Bytes
  GetDeviceOpenConfigJSON : DeviceSet → String → Except GoError Bytes

/-- The three readers of `*report.Repository` that the handlers call, each given by
what it returns in the current state of the history. -/
structure ReportRepository where
  GetLastJSON : Except GoError Bytes
  GetLastCompleteJSON : Except GoError Bytes
  GetLastSuccessfulJSON : Except GoError Bytes

structure Manager where
  devices : DevicesRepository
  reports : ReportRepository

def NewManager (deviceRepo : DevicesRepository) (reports : ReportRepository) : Manager :=
  { devices := deviceRepo, reports := reports }

/-- A call made on one of the two repositories. -/
inductive RepoCall where
  | Set (devices : DeviceSet)
  | ListAFKEnabledDevicesJSON
  | IsAFKEnabledJSON (hostname : String)
  | GetAllDevicesOpenConfigJSON
  | GetDeviceOpenConfigJSON (hostname : String)
  | GetLastJSON
  | GetLastCompleteJSON
  | GetLastSuccessfulJSON
  deriving DecidableEq

/-- Whether the call is `DevicesRepository.Set`. -/
def RepoCall.isSet : RepoCall → Bool
  | .Set _ => true
  | _ => false

/-- Execution state of a handler: the response writer, the published device set held
by the devices repository, the repository calls made so far (oldest first), what the
JSON readers among them returned (oldest first) and the errors handed to the logger
(oldest first). -/
structure Exec where
  w : ResponseWriter
  published : DeviceSet
  calls : List RepoCall
  returned : List (Except GoError Bytes)
  logged : List GoError

/-- State in which a handler starts: fresh writer, nothing called, nothing logged. -/
def Exec.start (published : DeviceSet) : Exec :=
  { w := ResponseWriter.new, published := published, calls := [], returned := [],
    logged := [] }

def Exec.headerSet (x : Exec) (key value : String) : Exec :=
  { x with w := { x.w with header := x.w.header.Set key value } }

def Exec.WriteHeader (x : Exec) (code : Nat) : Exec :=
  { x with w := x.w.WriteHeader code }

def Exec.Write (x : Exec) (data : Bytes) : Exec :=
  { x with w := x.w.Write data }

def Exec.Fprintf (x : Exec) (format : String) (args : List String) : Exec :=
  { x with w := x.w.Fprintf format args }

/-- The statement `log.Error().Err(err).Send()`. -/
def Exec.logError (x : Exec) (err : GoError) : Exec :=
  { x with logged := x.logged ++ [err] }

/-- Records a call of a JSON reader and what it returned. -/
def Exec.record (x : Exec) (c : RepoCall) (res : Except GoError Bytes) : Exec :=
  { x with calls := x.calls ++ [c], returned := x.returned ++ [res] }

def Exec.response (x : Exec) : Response := x.w.finish

/-! ### Calls through the `Manager` -/

def Manager.callSet (m : Manager) (x : Exec) (devices : DeviceSet) : Exec :=
  { x with calls := x.calls ++ [.Set devices],
           published := m.devices.Set devices x.published }

def Manager.callListAFKEnabledDevicesJSON (m : Manager) (x : Exec) :
    Except GoError Bytes × Exec :=
  let res := m.devices.ListAFKEnabledDevicesJSON x.published
  (res, x.record .ListAFKEnabledDevicesJSON res)

def Manager.callIsAFKEnabledJSON (m : Manager) (x : Exec) (hostname : String) :
    Except GoError Bytes × Exec :=
  let res := m.devices.IsAFKEnabledJSON x.published hostname
  (res, x.record (.IsAFKEnabledJSON hostname) res)

def Manager.callGetAllDevicesOpenConfigJSON (m : Manager) (x : Exec) :
    Except GoError Bytes × Exec :=
  let res := m.devices.GetAllDevicesOpenConfigJSON x.published
  (res, x.record .GetAllDevicesOpenConfigJSON res)

def Manager.callGetDeviceOpenConfigJSON (m : Manager) (x : Exec) (hostname : String) :
    Except GoError Bytes × Exec :=
  let res := m.devices.GetDeviceOpenConfigJSON x.published hostname
  (res, x.record (.GetDeviceOpenConfigJSON hostname) res)

def Manager.callGetLastJSON (m : Manager) (x : Exec) : Except GoError Bytes × Exec :=
  (m.reports.GetLastJSON, x.record .GetLastJSON m.reports.GetLastJSON)

def Manager.callGetLastCompleteJSON (m : Manager) (x : Exec) :
    Except GoError Bytes × Exec :=
  (m.reports.GetLastCompleteJSON, x.record .GetLastCompleteJSON m.reports.GetLastCompleteJSON)

def Manager.callGetLastSuccessfulJSON (m : Manager) (x : Exec) :
    Except GoError Bytes × Exec :=
  (m.reports.GetLastSuccessfulJSON,
    x.record .GetLastSuccessfulJSON m.reports.GetLastSuccessfulJSON)

/-! ## The handlers of `endpoints.go` -/

/-- The global `app.Info`, filled in by `main` from the link-time variables. -/
structure AppInfo where
  Version : String
  BuildTime : String
  BuildUser : String
  Commit : String
  deriving DecidableEq

def healthCheck (x : Exec) (_r : Request) (_ps : Params) : Exec :=
  let x := x.headerSet contentType applicationJSON
  x.Fprintf "\x7b\"status\": \"ok\"\x7d" []

def getVersion (Info : AppInfo) (x : Exec) (_r : Request) (_ps : Params) : Exec :=
  let x := x.headerSet contentType applicationJSON
  x.Fprintf "\x7b\"version\": \"%s\", \"build_time\": \"%s\", \"build_user\": \"%s\"\x7d"
    [Info.Version, Info.BuildTime, Info.BuildUser]

def Manager.getAFKEnabled (m : Manager) (x : Exec) (_r : Request) (ps : Params) : Exec :=
  let x := x.headerSet contentType applicationJSON
  let hostname := ByName ps hostnameKey
  if hostname = wildcard then
    match m.callListAFKEnabledDevicesJSON x with
    | (.error err, x) => (x.logError err).WriteHeader StatusInternalServerError
    | (.ok out, x) => x.Write out
  else
    match m.callIsAFKEnabledJSON x hostname with
    | (.error err, x) =>
        if errorsIs err device.ErrNotFound then
          (x.WriteHeader StatusNotFound).Write "\x7b\x7d"
        else
          (x.logError err).WriteHeader StatusInternalServerError
    | (.ok out, x) => x.Write out

def Manager.getDeviceOpenConfig (m : Manager) (x : Exec) (_r : Request) (ps : Params) :
    Exec :=
  let x := x.headerSet contentType applicationJSON
  let hostname := ByName ps hostnameKey
  if ByName ps hostnameKey = wildcard then
    match m.callGetAllDevicesOpenConfigJSON x with
    | (.error err, x) => (x.logError err).WriteHeader StatusInternalServerError
    | (.ok cfg, x) => x.Write cfg
  else
    match m.callGetDeviceOpenConfigJSON x hostname with
    | (.error err, x) => (x.logError err).WriteHeader StatusInternalServerError
    | (.ok cfg, x) => x.Write cfg

def Manager.getLastReport (m : Manager) (x : Exec) (_r : Request) (_ps : Params) : Exec :=
  match m.callGetLastJSON x with
  | (.error err, x) => (x.logError err).WriteHeader StatusInternalServerError
  | (.ok out, x) => (x.headerSet contentType applicationJSON).Write out

def Manager.getLastCompleteReport (m : Manager) (x : Exec) (_r : Request) (_ps : Params) :
    Exec :=
  match m.callGetLastCompleteJSON x with
  | (.error err, x) => (x.logError err).WriteHeader StatusInternalServerError
  | (.ok out, x) => (x.headerSet contentType applicationJSON).Write out

def Manager.getLastSuccessfulReport (m : Manager) (x : Exec) (_r : Request)
    (_ps : Params) : Exec :=
  match m.callGetLastSuccessfulJSON x with
  | (.error err, x) => (x.logError err).WriteHeader StatusInternalServerError
  | (.ok out, x) => (x.headerSet contentType applicationJSON).Write out

/-- The handler functions registered on the router. -/
inductive Endpoint where
  | prometheusMetrics
  | getVersion
  | healthCheck
  | getAFKEnabled
  | getDeviceOpenConfig
  | getLastReport
  | getLastCompleteReport
  | getLastSuccessfulReport
  deriving DecidableEq

/-- The function an endpoint names. `prometheusMetrics(h)` hands the request to the
handler `h` of the Prometheus client library, here the parameter `promHandler`. -/
def Endpoint.handler (m : Manager) (Info : AppInfo) (promHandler : Exec → Request → Exec) :
    Endpoint → Exec → Request → Params → Exec
  | .prometheusMetrics => fun x r _ps => promHandler x r
  | .getVersion => Router.getVersion Info
  | .healthCheck => Router.healthCheck
  | .getAFKEnabled => m.getAFKEnabled
  | .getDeviceOpenConfig => m.getDeviceOpenConfig
  | .getLastReport => m.getLastReport
  | .getLastCompleteReport => m.getLastCompleteReport
  | .getLastSuccessfulReport => m.getLastSuccessfulReport

/-! ## The route table of `Manager.ListenAndServe` -/

/-- How a handler is handed to the router: as it is, or inside `withAuth.Wrap`. -/
inductive Handle where
  | direct (e : Endpoint)
  | withAuthWrap (e : Endpoint)
  deriving DecidableEq

def Handle.isWrapped : Handle → Bool
  | .direct _ => false
  | .withAuthWrap _ => true

structure Route where
  method : String
  path : String
  handle : Handle
  deriving DecidableEq

/-- The registration `router.GET(path, handle)`. -/
def GET (router : List Route) (path : String) (handle : Handle) : List Route :=
  router ++ [{ method := "GET", path := path, handle := handle }]

/-- The route registrations of `Manager.ListenAndServe`, in source order, starting
from the empty router of `httprouter.New()`. -/
def registerRoutes : List Route :=
  let router : List Route := []
  let router := GET router "/metrics" (.direct .prometheusMetrics)
  let router := GET router "/api/version" (.direct .getVersion)
  let router := GET router "/api/health" (.direct .healthCheck)
  let router := GET router "/v1/devices/:hostname/afk_enabled" (.withAuthWrap .getAFKEnabled)
  let router := GET router "/v1/devices/:hostname/openconfig"
    (.withAuthWrap .getDeviceOpenConfig)
  let router := GET router "/v1/report/last" (.withAuthWrap .getLastReport)
  let router := GET router "/v1/report/last/complete" (.withAuthWrap .getLastCompleteReport)
  let router := GET router "/v1/report/last/successful"
    (.withAuthWrap .getLastSuccessfulReport)
  router

/-- The part of `Manager.ListenAndServe` that builds the router: it fails with the
error of `auth.NewBasicAuth` when there is one, and registers the routes otherwise.
`newBasicAuth` is the outcome of `auth.NewBasicAuth(config.Cfg.Authentication)`. -/
def ListenAndServe (newBasicAuth : Except GoError Unit) : Except GoError (List Route) :=
  match newBasicAuth with
  | .error err => .error err
  | .ok _ => .ok registerRoutes

/-- Whether `path` starts with `pre`. -/
def hasPathPrefix (pre path : String) : Bool :=
  pre.data.isPrefixOf path.data

end Router

/-! ## Reading a JSON object of strings (RFC 8259)

The reference against which the body of `getVersion` is judged: a reader for JSON
texts that are one object all of whose members are strings. -/

namespace Json

def isWs (c : Char) : Bool :=
  c = ' ' || c = '\t' || c = '\n' || c = '\r'

def skipWs : List Char → List Char
  | [] => []
  | c :: cs => if isWs c then skipWs cs else c :: cs

def hexVal (c : Char) : Option Nat :=
  if '0' ≤ c ∧ c ≤ '9' then some (c.toNat - '0'.toNat)
  else if 'a' ≤ c ∧ c ≤ 'f' then some (c.toNat - 'a'.toNat + 10)
  else if 'A' ≤ c ∧ c ≤ 'F' then some (c.toNat - 'A'.toNat + 10)
  else none

/-- The character a two-character escape sequence stands for. -/
def unescape (c : Char) : Option Char :=
  if c = '\x22' then some '\x22'
  else if c = '\x5c' then some '\x5c'
  else if c = '/' then some '/'
  else if c = 'b' then some '\x08'
  else if c = 'f' then some '\x0c'
  else if c = 'n' then some '\n'
  else if c = 'r' then some '\r'
  else if c = 't' then some '\t'
  else none

/-- Reads a JSON string whose opening quote has been consumed: the decoded characters
up to the closing quote, and the input after it. Control characters must be escaped. -/
def readString : List Char → Option (List Char × List Char)
  | [] => none
  | c :: rest =>
    if c = '\x22' then some ([], rest)
    else if c = '\x5c' then
      match rest with
      | [] => none
      | e :: rest1 =>
        if e = 'u' then
          match rest1 with
          | h1 :: h2 :: h3 :: h4 :: rest2 =>
            match hexVal h1, hexVal h2, hexVal h3, hexVal h4 with
            | some a, some b, some c2, some d =>
              match readString rest2 with
              | some (s, r) => some (Char.ofNat (((a * 16 + b) * 16 + c2) * 16 + d) :: s, r)
              | none => none
            | _, _, _, _ => none
          | _ => none
        else
          match unescape e with
          | some ch =>
            match readString rest1 with
            | some (s, r) => some (ch :: s, r)
            | none => none
          | none => none
    else if c.toNat < 32 then none
    else
      match readString rest with
      | some (s, r) => some (c :: s, r)
      | none => none

/-- Reads `"key" : "value"` members separated by commas up to the closing brace. -/
def readMembers : Nat → List Char → Option (List (String × String) × List Char)
  | 0, _ => none
  | fuel + 1, cs =>
    match skipWs cs with
    | q :: r1 =>
      if q = '\x22' then
        match readString r1 with
        | some (k, r2) =>
          match skipWs r2 with
          | colon :: r3 =>
            if colon = ':' then
              match skipWs r3 with
              | q2 :: r4 =>
                if q2 = '\x22' then
                  match readString r4 with
                  | some (v, r5) =>
                    match skipWs r5 with
                    | sep :: r6 =>
                      if sep = ',' then
                        match readMembers fuel r6 with
                        | some (ms, r7) => some ((String.mk k, String.mk v) :: ms, r7)
                        | none => none
                      else if sep = '\x7d' then some ([(String.mk k, String.mk v)], r6)
                      else none
                    | [] => none
                  | none => none
                else none
              | [] => none
            else none
          | [] => none
        | none => none
      else none
    | [] => none

/-- The members of `body` when it is a well-formed JSON object whose values are all
strings, in the order they are written; `none` when it is not. -/
def decodeStringObject (body : String) : Option (List (String × String)) :=
  match skipWs body.data with
  | [] => none
  | open1 :: r =>
    if open1 = '\x7b' then
      match skipWs r with
      | [] => none
      | c :: r1 =>
        if c = '\x7d' then (if skipWs r1 = [] then some [] else none)
        else
          match readMembers (c :: r1).length (c :: r1) with
          | some (ms, r2) => if skipWs r2 = [] then some ms else none
          | none => none
    else none

end Json

/-! ## The metrics registry of `registry.go` -/

namespace Metrics

/-- The three metric vectors of `Registry`. A gauge is given by the value of its one
label-less child, the counter vector by the value of the child of each value of its
label `success`; a child that has not been created yet reads 0. The gauges only ever
receive 0, 1 or a `uint32` count, which `float64` holds exactly, and `Inc` adds one to
the counter, so that values are natural numbers. -/
structure Registry where
  BuiltDevicesNumber : Nat
  lastBuildStatus : Nat
  buildTotal : String → Nat

def NewRegistry : Registry :=
  { BuiltDevicesNumber := 0, lastBuildStatus := 0, buildTotal := fun _ => 0 }

/-- Increment `buildTotal.WithLabelValues(label).Inc()` on the counter vector. -/
def incLabel (counter : String → Nat) (label : String) : String → Nat :=
  fun l => if l = label then counter l + 1 else counter l

def Registry.BuildSuccessful (r : Registry) : Registry :=
  let r := { r with lastBuildStatus := 1 }
  { r with buildTotal := incLabel r.buildTotal "true" }

def Registry.BuildFailed (r : Registry) : Registry :=
  let r := { r with lastBuildStatus := 0 }
  { r with buildTotal := incLabel r.buildTotal "false" }

def Registry.SetBuiltDevices (r : Registry) (count : Nat) : Registry :=
  { r with BuiltDevicesNumber := count }

/-- One call on the registry. -/
inductive Call where
  | BuildSuccessful
  | BuildFailed
  | SetBuiltDevices (count : Nat)
  deriving DecidableEq

def Registry.apply (r : Registry) : Call → Registry
  | .BuildSuccessful => r.BuildSuccessful
  | .BuildFailed => r.BuildFailed
  | .SetBuiltDevices count => r.SetBuiltDevices count

/-- The registry after a sequence of calls, made in order. -/
def Registry.run (r : Registry) (calls : List Call) : Registry :=
  calls.foldl Registry.apply r

/-- Whether the call reports a completed build. -/
def Call.isCompleted : Call → Bool
  | .BuildSuccessful => true
  | .BuildFailed => true
  | .SetBuiltDevices _ => false

/-- The last call of the sequence that reports a completed build, if there is one. -/
def lastCompleted (calls : List Call) : Option Call :=
  (calls.filter Call.isCompleted).getLast?

end Metrics

/-! ## Sample repositories -/

namespace Router

/-- Modelled from the spec: a devices repository as §4.1 describes it (package
`internal/convertor/device` is not among the sources). `Set` replaces the published
set, a point lookup of an absent hostname fails with an error wrapping
`device.ErrNotFound`. -/
def sampleRepository : DevicesRepository :=
  { Set := fun devices _ => devices
    ListAFKEnabledDevicesJSON := fun ds =>
      .ok ("[" ++ ",".intercalate
        ((ds.filter (fun p => p.2.afkEnabled)).map (fun p => "\"" ++ p.1 ++ "\"")) ++ "]")
    IsAFKEnabledJSON := fun ds hostname =>
      match ds.lookup hostname with
      | some d => .ok (if d.afkEnabled then "true" else "false")
      | none => .error (.wrap hostname device.ErrNotFound)
    GetAllDevicesOpenConfigJSON := fun ds =>
      .ok ("\x7b" ++ ",".intercalate
        (ds.map (fun p => "\"" ++ p.1 ++ "\":" ++ p.2.config)) ++ "\x7d")
    GetDeviceOpenConfigJSON := fun ds hostname =>
      match ds.lookup hostname with
      | some d => .ok d.config
      | none => .error (.wrap hostname device.ErrNotFound) }

/-- Modelled from the spec: the report repository before any build has started
(§4.3): each of the three readers fails with `NoReportYet`. -/
def emptyReports : ReportRepository :=
  { GetLastJSON := .error report.ErrNoReportYet
    GetLastCompleteJSON := .error report.ErrNoReportYet
    GetLastSuccessfulJSON := .error report.ErrNoReportYet }

/-- A devices repository all of whose readers fail with the error `e`. -/
def failingRepository (e : GoError) : DevicesRepository :=
  { Set := fun devices _ => devices
    ListAFKEnabledDevicesJSON := fun _ => .error e
    IsAFKEnabledJSON := fun _ _ => .error e
    GetAllDevicesOpenConfigJSON := fun _ => .error e
    GetDeviceOpenConfigJSON := fun _ _ => .error e }

def sampleManager : Manager := NewManager sampleRepository emptyReports

def sampleDevices : DeviceSet :=
  [("sw1", { afkEnabled := true, config := "\x7b\"interfaces\":[]\x7d" }),
   ("sw2", { afkEnabled := false, config := "\x7b\x7d" })]

def sampleInfo : AppInfo :=
  { Version := "1.4.2", BuildTime := "2024-01-01T00:00:00Z", BuildUser := "ci",
    Commit := "0a1b2c3" }

/-- Build information whose version string holds a double quote. -/
def quotedInfo : AppInfo :=
  { Version := "1.0\"", BuildTime := "unknown", BuildUser := "unknown", Commit := "unknown" }

def sampleRequest : Request :=
  { method := "GET", path := "/v1/devices/unknown-host/afk_enabled", header := ⟨[]⟩ }

/-- The parameters httprouter extracts for `:hostname`. -/
def hostnameParams (hostname : String) : Params :=
  [{ Key := "hostname", Value := hostname }]

/-- The response with the given status, `Content-Type: application/json` as its only
header, and the given body. -/
def jsonResponse (status : Nat) (body : Bytes) : Response :=
  { status := status, header := ⟨[(contentType, applicationJSON)]⟩, body := body }

/-- The response with status 500, no header and no body. -/
def bareServerError : Response :=
  { status := 500, header := ⟨[]⟩, body := "" }

/-- The three report handlers share one body, up to the reader they call: the state
in which such a handler ends when reader `c` returned `res`. -/
def reportOutcome (published : DeviceSet) (c : RepoCall) (res : Except GoError Bytes) :
    Exec :=
  match res with
  | .error err => (((Exec.start published).record c (.error err)).logError err).WriteHeader 500
  | .ok out =>
    (((Exec.start published).record c (.ok out)).headerSet contentType applicationJSON).Write
      out

end Router

namespace Json

/-- A character that stands for itself inside a JSON string: neither the double
quote, nor the backslash, nor a control character. -/
def plainChar (c : Char) : Bool :=
  c != '\x22' && c != '\x5c' && decide (32 ≤ c.toNat)

/-- A string all of whose characters stand for themselves inside a JSON string. -/
def plainString (s : String) : Bool :=
  s.data.all plainChar

end Json

/-! # Properties -/

namespace Router

/-! ## What each handler does, by the outcome of its repository call -/

theorem getAFKEnabled_wildcard (m : Manager) (published : DeviceSet) (r : Request)
    (ps : Params) (hw : ByName ps hostnameKey = wildcard) :
    m.getAFKEnabled (Exec.start published) r ps =
      match m.devices.ListAFKEnabledDevicesJSON published with
      | .error err =>
        ((((Exec.start published).headerSet contentType applicationJSON).record
          .ListAFKEnabledDevicesJSON (.error err)).logError err).WriteHeader 500
      | .ok out =>
        (((Exec.start published).headerSet contentType applicationJSON).record
          .ListAFKEnabledDevicesJSON (.ok out)).Write out := by
  cases hres : m.devices.ListAFKEnabledDevicesJSON published <;>
    simp [Manager.getAFKEnabled, Manager.callListAFKEnabledDevicesJSON, hw, Exec.headerSet,
      Exec.start, hres, StatusInternalServerError]

theorem getAFKEnabled_hostname (m : Manager) (published : DeviceSet) (r : Request)
    (ps : Params) (hw : ByName ps hostnameKey ≠ wildcard) :
    m.getAFKEnabled (Exec.start published) r ps =
      match m.devices.IsAFKEnabledJSON published (ByName ps hostnameKey) with
      | .error err =>
        if errorsIs err device.ErrNotFound then
          ((((Exec.start published).headerSet contentType applicationJSON).record
            (.IsAFKEnabledJSON (ByName ps hostnameKey)) (.error err)).WriteHeader 404).Write
            "\x7b\x7d"
        else
          ((((Exec.start published).headerSet contentType applicationJSON).record
            (.IsAFKEnabledJSON (ByName ps hostnameKey)) (.error err)).logError err).WriteHeader
            500
      | .ok out =>
        (((Exec.start published).headerSet contentType applicationJSON).record
          (.IsAFKEnabledJSON (ByName ps hostnameKey)) (.ok out)).Write out := by
  cases hres : m.devices.IsAFKEnabledJSON published (ByName ps hostnameKey) <;>
    simp [Manager.getAFKEnabled, Manager.callIsAFKEnabledJSON, hw, Exec.headerSet,
      Exec.start, hres, StatusInternalServerError, StatusNotFound]

theorem getDeviceOpenConfig_wildcard (m : Manager) (published : DeviceSet) (r : Request)
    (ps : Params) (hw : ByName ps hostnameKey = wildcard) :
    m.getDeviceOpenConfig (Exec.start published) r ps =
      match m.devices.GetAllDevicesOpenConfigJSON published with
      | .error err =>
        ((((Exec.start published).headerSet contentType applicationJSON).record
          .GetAllDevicesOpenConfigJSON (.error err)).logError err).WriteHeader 500
      | .ok cfg =>
        (((Exec.start published).headerSet contentType applicationJSON).record
          .GetAllDevicesOpenConfigJSON (.ok cfg)).Write cfg := by
  cases hres : m.devices.GetAllDevicesOpenConfigJSON published <;>
    simp [Manager.getDeviceOpenConfig, Manager.callGetAllDevicesOpenConfigJSON, hw,
      Exec.headerSet, Exec.start, hres, StatusInternalServerError]

theorem getDeviceOpenConfig_hostname (m : Manager) (published : DeviceSet) (r : Request)
    (ps : Params) (hw : ByName ps hostnameKey ≠ wildcard) :
    m.getDeviceOpenConfig (Exec.start published) r ps =
      match m.devices.GetDeviceOpenConfigJSON published (ByName ps hostnameKey) with
      | .error err =>
        ((((Exec.start published).headerSet contentType applicationJSON).record
          (.GetDeviceOpenConfigJSON (ByName ps hostnameKey)) (.error err)).logError
          err).WriteHeader 500
      | .ok cfg =>
        (((Exec.start published).headerSet contentType applicationJSON).record
          (.GetDeviceOpenConfigJSON (ByName ps hostnameKey)) (.ok cfg)).Write cfg := by
  cases hres : m.devices.GetDeviceOpenConfigJSON published (ByName ps hostnameKey) <;>
    simp [Manager.getDeviceOpenConfig, Manager.callGetDeviceOpenConfigJSON, hw,
      Exec.headerSet, Exec.start, hres, StatusInternalServerError]

theorem getLastReport_eq (m : Manager) (published : DeviceSet) (r : Request) (ps : Params) :
    m.getLastReport (Exec.start published) r ps =
      reportOutcome published .GetLastJSON m.reports.GetLastJSON := by
  cases hres : m.reports.GetLastJSON <;>
    simp [Manager.getLastReport, Manager.callGetLastJSON, reportOutcome, hres,
      StatusInternalServerError]

theorem getLastCompleteReport_eq (m : Manager) (published : DeviceSet) (r : Request)
    (ps : Params) :
    m.getLastCompleteReport (Exec.start published) r ps =
      reportOutcome published .GetLastCompleteJSON m.reports.GetLastCompleteJSON := by
  cases hres : m.reports.GetLastCompleteJSON <;>
    simp [Manager.getLastCompleteReport, Manager.callGetLastCompleteJSON, reportOutcome, hres,
      StatusInternalServerError]

theorem getLastSuccessfulReport_eq (m : Manager) (published : DeviceSet) (r : Request)
    (ps : Params) :
    m.getLastSuccessfulReport (Exec.start published) r ps =
      reportOutcome published .GetLastSuccessfulJSON m.reports.GetLastSuccessfulJSON := by
  cases hres : m.reports.GetLastSuccessfulJSON <;>
    simp [Manager.getLastSuccessfulReport, Manager.callGetLastSuccessfulJSON, reportOutcome,
      hres, StatusInternalServerError]

theorem reportOutcome_returned (published : DeviceSet) (c : RepoCall)
    (res : Except GoError Bytes) :
    (reportOutcome published c res).returned = [res] ∧
    (reportOutcome published c res).calls = [c] ∧
    (reportOutcome published c res).published = published := by
  cases res <;> exact ⟨rfl, rfl, rfl⟩

/-! ## Error handling of the endpoints -/

/-- C1: for a hostname other than the wildcard, when `IsAFKEnabledJSON(hostname)`
returns an error `e` with `errors.Is(e, device.ErrNotFound)` (the sentinel or an error
wrapping it), `getAFKEnabled` answers status 404 with `Content-Type: application/json`
as its only header and a body that is exactly the two bytes of the empty JSON object;
nothing else is written. -/
theorem getAFKEnabled_not_found (m : Manager) (published : DeviceSet) (r : Request)
    (ps : Params) (e : GoError)
    (hw : ByName ps hostnameKey ≠ wildcard)
    (herr : m.devices.IsAFKEnabledJSON published (ByName ps hostnameKey) = .error e)
    (his : errorsIs e device.ErrNotFound = true) :
    (m.getAFKEnabled (Exec.start published) r ps).response = jsonResponse 404 "\x7b\x7d" ∧
    (m.getAFKEnabled (Exec.start published) r ps).response.body.utf8ByteSize = 2 := by
  rw [getAFKEnabled_hostname m published r ps hw, herr]
  simp only [his, if_true]
  exact ⟨rfl, rfl⟩

/-- The 404 answer of `getAFKEnabled` on the sample repository, for a hostname that is
not in the published set. -/
theorem getAFKEnabled_not_found_witness :
    ByName (hostnameParams "unknown-host") hostnameKey ≠ wildcard ∧
    sampleManager.devices.IsAFKEnabledJSON sampleDevices
      (ByName (hostnameParams "unknown-host") hostnameKey) =
        .error (.wrap "unknown-host" device.ErrNotFound) ∧
    errorsIs (.wrap "unknown-host" device.ErrNotFound) device.ErrNotFound = true ∧
    (sampleManager.getAFKEnabled (Exec.start sampleDevices) sampleRequest
      (hostnameParams "unknown-host")).response = jsonResponse 404 "\x7b\x7d" ∧
    (sampleManager.getAFKEnabled (Exec.start sampleDevices) sampleRequest
      (hostnameParams "unknown-host")).response.body.utf8ByteSize = 2 :=
  ⟨by decide, by rfl, by decide,
    getAFKEnabled_not_found sampleManager sampleDevices sampleRequest
      (hostnameParams "unknown-host") (.wrap "unknown-host" device.ErrNotFound)
      (by decide) (by rfl) (by decide)⟩

/-- C2, as the claim states it, fails: none of the three report handlers answers 404
when its reader fails with `NoReportYet`. -/
theorem report_handlers_no_report_yet_not_404 :
    (¬ ∀ (m : Manager) (published : DeviceSet) (r : Request) (ps : Params),
      m.reports.GetLastJSON = .error report.ErrNoReportYet →
      (m.getLastReport (Exec.start published) r ps).response.status = 404) ∧
    (¬ ∀ (m : Manager) (published : DeviceSet) (r : Request) (ps : Params),
      m.reports.GetLastCompleteJSON = .error report.ErrNoReportYet →
      (m.getLastCompleteReport (Exec.start published) r ps).response.status = 404) ∧
    (¬ ∀ (m : Manager) (published : DeviceSet) (r : Request) (ps : Params),
      m.reports.GetLastSuccessfulJSON = .error report.ErrNoReportYet →
      (m.getLastSuccessfulReport (Exec.start published) r ps).response.status = 404) := by
  refine ⟨fun h => ?_, fun h => ?_, fun h => ?_⟩
  · exact absurd (h sampleManager [] sampleRequest [] rfl) (by decide)
  · exact absurd (h sampleManager [] sampleRequest [] rfl) (by decide)
  · exact absurd (h sampleManager [] sampleRequest [] rfl) (by decide)

/-- C2, amended: when the reader of a report handler (`GetLastJSON`,
`GetLastCompleteJSON`, `GetLastSuccessfulJSON`) fails with any error `e`, `NoReportYet`
included, the handler logs `e` and answers status 500 with no header and an empty
body. -/
theorem report_handlers_error_500 (m : Manager) (published : DeviceSet) (r : Request)
    (ps : Params) (e : GoError) :
    (m.reports.GetLastJSON = .error e →
      (m.getLastReport (Exec.start published) r ps).response = bareServerError ∧
      (m.getLastReport (Exec.start published) r ps).logged = [e]) ∧
    (m.reports.GetLastCompleteJSON = .error e →
      (m.getLastCompleteReport (Exec.start published) r ps).response = bareServerError ∧
      (m.getLastCompleteReport (Exec.start published) r ps).logged = [e]) ∧
    (m.reports.GetLastSuccessfulJSON = .error e →
      (m.getLastSuccessfulReport (Exec.start published) r ps).response = bareServerError ∧
      (m.getLastSuccessfulReport (Exec.start published) r ps).logged = [e]) := by
  refine ⟨fun h => ?_, fun h => ?_, fun h => ?_⟩
  · rw [getLastReport_eq, h]
    exact ⟨rfl, rfl⟩
  · rw [getLastCompleteReport_eq, h]
    exact ⟨rfl, rfl⟩
  · rw [getLastSuccessfulReport_eq, h]
    exact ⟨rfl, rfl⟩

/-- The three report handlers before the first build: status 500, and `NoReportYet`
in the log. -/
theorem report_handlers_error_500_witness :
    ((sampleManager.getLastReport (Exec.start []) sampleRequest []).response =
        bareServerError ∧
      (sampleManager.getLastReport (Exec.start []) sampleRequest []).logged =
        [report.ErrNoReportYet]) ∧
    ((sampleManager.getLastCompleteReport (Exec.start []) sampleRequest []).response =
        bareServerError ∧
      (sampleManager.getLastCompleteReport (Exec.start []) sampleRequest []).logged =
        [report.ErrNoReportYet]) ∧
    ((sampleManager.getLastSuccessfulReport (Exec.start []) sampleRequest []).response =
        bareServerError ∧
      (sampleManager.getLastSuccessfulReport (Exec.start []) sampleRequest []).logged =
        [report.ErrNoReportYet]) :=
  ⟨(report_handlers_error_500 sampleManager [] sampleRequest [] report.ErrNoReportYet).1 rfl,
   (report_handlers_error_500 sampleManager [] sampleRequest [] report.ErrNoReportYet).2.1 rfl,
   (report_handlers_error_500 sampleManager [] sampleRequest [] report.ErrNoReportYet).2.2
     rfl⟩

/-- C3: for a hostname other than the wildcard, whatever error
`GetDeviceOpenConfigJSON(hostname)` returns, `device.ErrNotFound` included,
`getDeviceOpenConfig` answers status 500 with an empty body, and so never 404; on the
same hostname `getAFKEnabled` answers 404 when `IsAFKEnabledJSON` fails with an error
that is `device.ErrNotFound`. -/
theorem getDeviceOpenConfig_error_500 (m : Manager) (published : DeviceSet) (r : Request)
    (ps : Params) (e : GoError)
    (hw : ByName ps hostnameKey ≠ wildcard)
    (herr : m.devices.GetDeviceOpenConfigJSON published (ByName ps hostnameKey) = .error e) :
    (m.getDeviceOpenConfig (Exec.start published) r ps).response = jsonResponse 500 "" ∧
    (m.getDeviceOpenConfig (Exec.start published) r ps).response.status ≠ 404 ∧
    (∀ e2 : GoError,
      m.devices.IsAFKEnabledJSON published (ByName ps hostnameKey) = .error e2 →
      errorsIs e2 device.ErrNotFound = true →
      (m.getAFKEnabled (Exec.start published) r ps).response.status = 404) := by
  rw [getDeviceOpenConfig_hostname m published r ps hw, herr]
  refine ⟨rfl, ?_, fun e2 h his => ?_⟩
  · show (500 : Nat) ≠ 404
    decide
  · rw [getAFKEnabled_hostname m published r ps hw, h]
    simp only [his, if_true]
    rfl

/-- The two device endpoints on the sample repository, for a hostname that is not in
the published set: 500 from `getDeviceOpenConfig`, 404 from `getAFKEnabled`. -/
theorem getDeviceOpenConfig_error_500_witness :
    ByName (hostnameParams "unknown-host") hostnameKey ≠ wildcard ∧
    errorsIs (.wrap "unknown-host" device.ErrNotFound) device.ErrNotFound = true ∧
    (sampleManager.getDeviceOpenConfig (Exec.start sampleDevices) sampleRequest
      (hostnameParams "unknown-host")).response = jsonResponse 500 "" ∧
    (sampleManager.getDeviceOpenConfig (Exec.start sampleDevices) sampleRequest
      (hostnameParams "unknown-host")).response.status ≠ 404 ∧
    (sampleManager.getAFKEnabled (Exec.start sampleDevices) sampleRequest
      (hostnameParams "unknown-host")).response.status = 404 :=
  have h := getDeviceOpenConfig_error_500 sampleManager sampleDevices sampleRequest
    (hostnameParams "unknown-host") (.wrap "unknown-host" device.ErrNotFound)
    (by decide) (by rfl)
  ⟨by decide, by decide, h.1, h.2.1,
    h.2.2 (.wrap "unknown-host" device.ErrNotFound) (by rfl) (by decide)⟩

/-! ## Error responses do not depend on the error -/

theorem getAFKEnabled_returned_error (m : Manager) (published : DeviceSet) (r : Request)
    (ps : Params) (e : GoError)
    (hret : (m.getAFKEnabled (Exec.start published) r ps).returned = [.error e])
    (hnot : errorsIs e device.ErrNotFound = false) :
    (m.getAFKEnabled (Exec.start published) r ps).response = jsonResponse 500 "" := by
  by_cases hw : ByName ps hostnameKey = wildcard
  · rw [getAFKEnabled_wildcard m published r ps hw] at hret ⊢
    cases hres : m.devices.ListAFKEnabledDevicesJSON published with
    | error err => rfl
    | ok out =>
      rw [hres] at hret
      have h0 : [Except.ok out] = [Except.error e] := hret
      simp at h0
  · rw [getAFKEnabled_hostname m published r ps hw] at hret ⊢
    cases hres : m.devices.IsAFKEnabledJSON published (ByName ps hostnameKey) with
    | error err =>
      rw [hres] at hret
      by_cases his : errorsIs err device.ErrNotFound = true
      · simp only [his, if_true] at hret
        have h0 : [Except.error err] = [Except.error e] := hret
        simp at h0
        rw [h0, hnot] at his
        exact absurd his (by decide)
      · simp only [his]
        rfl
    | ok out =>
      rw [hres] at hret
      have h0 : [Except.ok out] = [Except.error e] := hret
      simp at h0

theorem getDeviceOpenConfig_returned_error (m : Manager) (published : DeviceSet)
    (r : Request) (ps : Params) (e : GoError)
    (hret : (m.getDeviceOpenConfig (Exec.start published) r ps).returned = [.error e]) :
    (m.getDeviceOpenConfig (Exec.start published) r ps).response = jsonResponse 500 "" := by
  by_cases hw : ByName ps hostnameKey = wildcard
  · rw [getDeviceOpenConfig_wildcard m published r ps hw] at hret ⊢
    cases hres : m.devices.GetAllDevicesOpenConfigJSON published with
    | error err => rfl
    | ok out =>
      rw [hres] at hret
      have h0 : [Except.ok out] = [Except.error e] := hret
      simp at h0
  · rw [getDeviceOpenConfig_hostname m published r ps hw] at hret ⊢
    cases hres : m.devices.GetDeviceOpenConfigJSON published (ByName ps hostnameKey) with
    | error err => rfl
    | ok out =>
      rw [hres] at hret
      have h0 : [Except.ok out] = [Except.error e] := hret
      simp at h0

theorem reportOutcome_returned_error (published : DeviceSet) (c : RepoCall)
    (res : Except GoError Bytes) (e : GoError)
    (hret : (reportOutcome published c res).returned = [.error e]) :
    (reportOutcome published c res).response = bareServerError := by
  cases res with
  | error err => rfl
  | ok out =>
    have h0 : [Except.ok out] = [Except.error e] := hret
    simp at h0

/-- The response an authenticated handler gives when its repository call fails with
an error that is not `device.ErrNotFound`. -/
theorem handler_error_response (ep : Endpoint) (m : Manager) (Info : AppInfo)
    (prom : Exec → Request → Exec) (published : DeviceSet) (r : Request) (ps : Params)
    (e : GoError)
    (hep : ep ∈ [Endpoint.getAFKEnabled, .getDeviceOpenConfig, .getLastReport,
      .getLastCompleteReport, .getLastSuccessfulReport])
    (hret : (ep.handler m Info prom (Exec.start published) r ps).returned = [.error e])
    (hnot : errorsIs e device.ErrNotFound = false) :
    (ep.handler m Info prom (Exec.start published) r ps).response =
      if ep = .getAFKEnabled ∨ ep = .getDeviceOpenConfig then jsonResponse 500 ""
      else bareServerError := by
  simp only [List.mem_cons, List.mem_singleton, List.not_mem_nil, or_false] at hep
  rcases hep with rfl | rfl | rfl | rfl | rfl
  · simpa using getAFKEnabled_returned_error m published r ps e hret hnot
  · simpa using getDeviceOpenConfig_returned_error m published r ps e hret
  · simp only [Endpoint.handler, getLastReport_eq] at hret ⊢
    simpa using reportOutcome_returned_error published _ _ e hret
  · simp only [Endpoint.handler, getLastCompleteReport_eq] at hret ⊢
    simpa using reportOutcome_returned_error published _ _ e hret
  · simp only [Endpoint.handler, getLastSuccessfulReport_eq] at hret ⊢
    simpa using reportOutcome_returned_error published _ _ e hret

/-- C4: for each of the five authenticated handlers, when the repository call fails
in two runs with errors `e1` and `e2`, neither of which is `device.ErrNotFound` (in
the sense of `errors.Is`), the two responses (status, headers, body) are equal, with
status 500 and an empty body: nothing of the error reaches the caller. -/
theorem error_response_independent_of_error (ep : Endpoint) (m1 m2 : Manager)
    (Info : AppInfo) (prom : Exec → Request → Exec) (published1 published2 : DeviceSet)
    (r1 r2 : Request) (ps1 ps2 : Params) (e1 e2 : GoError)
    (hep : ep ∈ [Endpoint.getAFKEnabled, .getDeviceOpenConfig, .getLastReport,
      .getLastCompleteReport, .getLastSuccessfulReport])
    (hret1 : (ep.handler m1 Info prom (Exec.start published1) r1 ps1).returned = [.error e1])
    (hret2 : (ep.handler m2 Info prom (Exec.start published2) r2 ps2).returned = [.error e2])
    (hnot1 : errorsIs e1 device.ErrNotFound = false)
    (hnot2 : errorsIs e2 device.ErrNotFound = false) :
    (ep.handler m1 Info prom (Exec.start published1) r1 ps1).response =
      (ep.handler m2 Info prom (Exec.start published2) r2 ps2).response ∧
    (ep.handler m1 Info prom (Exec.start published1) r1 ps1).response.status = 500 ∧
    (ep.handler m1 Info prom (Exec.start published1) r1 ps1).response.body = "" := by
  rw [handler_error_response ep m1 Info prom published1 r1 ps1 e1 hep hret1 hnot1,
    handler_error_response ep m2 Info prom published2 r2 ps2 e2 hep hret2 hnot2]
  refine ⟨rfl, ?_, ?_⟩ <;> split <;> rfl

/-- Two failing repositories with different errors, and the same response of
`getAFKEnabled`. -/
theorem error_response_independent_of_error_witness :
    errorsIs (.sentinel "json: unsupported type") device.ErrNotFound = false ∧
    errorsIs (.wrap "marshal" (.sentinel "unexpected EOF")) device.ErrNotFound = false ∧
    (Endpoint.getAFKEnabled.handler
        (NewManager (failingRepository (.sentinel "json: unsupported type")) emptyReports)
        sampleInfo (fun x _ => x) (Exec.start sampleDevices) sampleRequest
        (hostnameParams "sw1")).response =
      (Endpoint.getAFKEnabled.handler
        (NewManager (failingRepository (.wrap "marshal" (.sentinel "unexpected EOF")))
          emptyReports)
        sampleInfo (fun x _ => x) (Exec.start []) sampleRequest
        (hostnameParams "sw2")).response ∧
    (Endpoint.getAFKEnabled.handler
        (NewManager (failingRepository (.sentinel "json: unsupported type")) emptyReports)
        sampleInfo (fun x _ => x) (Exec.start sampleDevices) sampleRequest
        (hostnameParams "sw1")).response.status = 500 ∧
    (Endpoint.getAFKEnabled.handler
        (NewManager (failingRepository (.sentinel "json: unsupported type")) emptyReports)
        sampleInfo (fun x _ => x) (Exec.start sampleDevices) sampleRequest
        (hostnameParams "sw1")).response.body = "" :=
  ⟨by decide, by decide,
    error_response_independent_of_error Endpoint.getAFKEnabled
      (NewManager (failingRepository (.sentinel "json: unsupported type")) emptyReports)
      (NewManager (failingRepository (.wrap "marshal" (.sentinel "unexpected EOF")))
        emptyReports)
      sampleInfo (fun x _ => x) sampleDevices [] sampleRequest sampleRequest
      (hostnameParams "sw1") (hostnameParams "sw2")
      (.sentinel "json: unsupported type") (.wrap "marshal" (.sentinel "unexpected EOF"))
      (by decide) (by rfl) (by rfl) (by decide) (by decide)⟩

/-! ## Wildcard dispatch -/

/-- A successful write on the fresh writer of a device endpoint. -/
theorem device_endpoint_write (published : DeviceSet) (c : RepoCall) (b : Bytes) :
    ((((Exec.start published).headerSet contentType applicationJSON).record c
      (.ok b)).Write b).response = jsonResponse 200 b := by
  simp [jsonResponse, Exec.response, Exec.Write, Exec.record, Exec.headerSet, Exec.start,
    ResponseWriter.Write, ResponseWriter.finish, ResponseWriter.WriteHeader,
    ResponseWriter.new, Header.Set, bodyAllowedForStatus, StatusOK]

theorem getAFKEnabled_trace (m : Manager) (published : DeviceSet) (r : Request)
    (ps : Params) :
    (m.getAFKEnabled (Exec.start published) r ps).calls =
      [if ByName ps hostnameKey = wildcard then RepoCall.ListAFKEnabledDevicesJSON
        else RepoCall.IsAFKEnabledJSON (ByName ps hostnameKey)] ∧
    (m.getAFKEnabled (Exec.start published) r ps).returned =
      [if ByName ps hostnameKey = wildcard then m.devices.ListAFKEnabledDevicesJSON published
        else m.devices.IsAFKEnabledJSON published (ByName ps hostnameKey)] ∧
    (m.getAFKEnabled (Exec.start published) r ps).published = published := by
  by_cases hw : ByName ps hostnameKey = wildcard
  · rw [getAFKEnabled_wildcard m published r ps hw, if_pos hw, if_pos hw]
    cases m.devices.ListAFKEnabledDevicesJSON published <;> exact ⟨rfl, rfl, rfl⟩
  · rw [getAFKEnabled_hostname m published r ps hw, if_neg hw, if_neg hw]
    cases m.devices.IsAFKEnabledJSON published (ByName ps hostnameKey) with
    | error err => dsimp only; split <;> exact ⟨rfl, rfl, rfl⟩
    | ok out => exact ⟨rfl, rfl, rfl⟩

theorem getDeviceOpenConfig_trace (m : Manager) (published : DeviceSet) (r : Request)
    (ps : Params) :
    (m.getDeviceOpenConfig (Exec.start published) r ps).calls =
      [if ByName ps hostnameKey = wildcard then RepoCall.GetAllDevicesOpenConfigJSON
        else RepoCall.GetDeviceOpenConfigJSON (ByName ps hostnameKey)] ∧
    (m.getDeviceOpenConfig (Exec.start published) r ps).returned =
      [if ByName ps hostnameKey = wildcard
        then m.devices.GetAllDevicesOpenConfigJSON published
        else m.devices.GetDeviceOpenConfigJSON published (ByName ps hostnameKey)] ∧
    (m.getDeviceOpenConfig (Exec.start published) r ps).published = published := by
  by_cases hw : ByName ps hostnameKey = wildcard
  · rw [getDeviceOpenConfig_wildcard m published r ps hw, if_pos hw, if_pos hw]
    cases m.devices.GetAllDevicesOpenConfigJSON published <;> exact ⟨rfl, rfl, rfl⟩
  · rw [getDeviceOpenConfig_hostname m published r ps hw, if_neg hw, if_neg hw]
    cases m.devices.GetDeviceOpenConfigJSON published (ByName ps hostnameKey) <;>
      exact ⟨rfl, rfl, rfl⟩

theorem getAFKEnabled_ok (m : Manager) (published : DeviceSet) (r : Request) (ps : Params)
    (b : Bytes)
    (hret : (m.getAFKEnabled (Exec.start published) r ps).returned = [.ok b]) :
    (m.getAFKEnabled (Exec.start published) r ps).response = jsonResponse 200 b := by
  have htr := (getAFKEnabled_trace m published r ps).2.1
  rw [hret] at htr
  by_cases hw : ByName ps hostnameKey = wildcard
  · rw [if_pos hw] at htr
    rw [getAFKEnabled_wildcard m published r ps hw, ← List.head_eq_of_cons_eq htr]
    exact device_endpoint_write published _ b
  · rw [if_neg hw] at htr
    rw [getAFKEnabled_hostname m published r ps hw, ← List.head_eq_of_cons_eq htr]
    exact device_endpoint_write published _ b

theorem getDeviceOpenConfig_ok (m : Manager) (published : DeviceSet) (r : Request)
    (ps : Params) (b : Bytes)
    (hret : (m.getDeviceOpenConfig (Exec.start published) r ps).returned = [.ok b]) :
    (m.getDeviceOpenConfig (Exec.start published) r ps).response = jsonResponse 200 b := by
  have htr := (getDeviceOpenConfig_trace m published r ps).2.1
  rw [hret] at htr
  by_cases hw : ByName ps hostnameKey = wildcard
  · rw [if_pos hw] at htr
    rw [getDeviceOpenConfig_wildcard m published r ps hw, ← List.head_eq_of_cons_eq htr]
    exact device_endpoint_write published _ b
  · rw [if_neg hw] at htr
    rw [getDeviceOpenConfig_hostname m published r ps hw, ← List.head_eq_of_cons_eq htr]
    exact device_endpoint_write published _ b

/-- C5: `getAFKEnabled` calls `ListAFKEnabledDevicesJSON`, and nothing else, exactly
when the hostname parameter is the one-character string `*`, and otherwise calls
`IsAFKEnabledJSON` on the hostname unchanged, and nothing else; `getDeviceOpenConfig`
does the same with `GetAllDevicesOpenConfigJSON` and `GetDeviceOpenConfigJSON`. When
the call made returns bytes `b` without error, the response has status 200,
`Content-Type: application/json` and body `b`. -/
theorem wildcard_dispatch (m : Manager) (published : DeviceSet) (r : Request)
    (ps : Params) :
    wildcard = "*" ∧ wildcard.length = 1 ∧
    ((m.getAFKEnabled (Exec.start published) r ps).calls = [.ListAFKEnabledDevicesJSON] ↔
      ByName ps hostnameKey = wildcard) ∧
    (ByName ps hostnameKey = wildcard →
      (m.getAFKEnabled (Exec.start published) r ps).returned =
        [m.devices.ListAFKEnabledDevicesJSON published]) ∧
    (ByName ps hostnameKey ≠ wildcard →
      (m.getAFKEnabled (Exec.start published) r ps).calls =
        [.IsAFKEnabledJSON (ByName ps hostnameKey)] ∧
      (m.getAFKEnabled (Exec.start published) r ps).returned =
        [m.devices.IsAFKEnabledJSON published (ByName ps hostnameKey)]) ∧
    ((m.getDeviceOpenConfig (Exec.start published) r ps).calls =
        [.GetAllDevicesOpenConfigJSON] ↔
      ByName ps hostnameKey = wildcard) ∧
    (ByName ps hostnameKey = wildcard →
      (m.getDeviceOpenConfig (Exec.start published) r ps).returned =
        [m.devices.GetAllDevicesOpenConfigJSON published]) ∧
    (ByName ps hostnameKey ≠ wildcard →
      (m.getDeviceOpenConfig (Exec.start published) r ps).calls =
        [.GetDeviceOpenConfigJSON (ByName ps hostnameKey)] ∧
      (m.getDeviceOpenConfig (Exec.start published) r ps).returned =
        [m.devices.GetDeviceOpenConfigJSON published (ByName ps hostnameKey)]) ∧
    (∀ b : Bytes, (m.getAFKEnabled (Exec.start published) r ps).returned = [.ok b] →
      (m.getAFKEnabled (Exec.start published) r ps).response = jsonResponse 200 b) ∧
    (∀ b : Bytes, (m.getDeviceOpenConfig (Exec.start published) r ps).returned = [.ok b] →
      (m.getDeviceOpenConfig (Exec.start published) r ps).response = jsonResponse 200 b) := by
  obtain ⟨hc1, hr1, -⟩ := getAFKEnabled_trace m published r ps
  obtain ⟨hc2, hr2, -⟩ := getDeviceOpenConfig_trace m published r ps
  refine ⟨rfl, rfl, ?_, ?_, ?_, ?_, ?_, ?_, getAFKEnabled_ok m published r ps,
    getDeviceOpenConfig_ok m published r ps⟩
  · rw [hc1]
    by_cases hw : ByName ps hostnameKey = wildcard <;> simp [hw]
  · intro hw
    rw [hr1, if_pos hw]
  · intro hw
    rw [hc1, hr1, if_neg hw, if_neg hw]
    exact ⟨rfl, rfl⟩
  · rw [hc2]
    by_cases hw : ByName ps hostnameKey = wildcard <;> simp [hw]
  · intro hw
    rw [hr2, if_pos hw]
  · intro hw
    rw [hc2, hr2, if_neg hw, if_neg hw]
    exact ⟨rfl, rfl⟩

/-- The dispatch of the two device endpoints on the sample repository. -/
theorem wildcard_dispatch_witness :
    ((sampleManager.getAFKEnabled (Exec.start sampleDevices) sampleRequest
        (hostnameParams "*")).calls = [.ListAFKEnabledDevicesJSON] ∧
      (sampleManager.getAFKEnabled (Exec.start sampleDevices) sampleRequest
        (hostnameParams "*")).response = jsonResponse 200 "[\"sw1\"]") ∧
    ((sampleManager.getAFKEnabled (Exec.start sampleDevices) sampleRequest
        (hostnameParams "sw1")).calls = [.IsAFKEnabledJSON "sw1"] ∧
      (sampleManager.getAFKEnabled (Exec.start sampleDevices) sampleRequest
        (hostnameParams "sw1")).response = jsonResponse 200 "true") ∧
    ((sampleManager.getDeviceOpenConfig (Exec.start sampleDevices) sampleRequest
        (hostnameParams "sw2")).calls = [.GetDeviceOpenConfigJSON "sw2"] ∧
      (sampleManager.getDeviceOpenConfig (Exec.start sampleDevices) sampleRequest
        (hostnameParams "sw2")).response = jsonResponse 200 "\x7b\x7d") :=
  ⟨⟨(wildcard_dispatch sampleManager sampleDevices sampleRequest
        (hostnameParams "*")).2.2.1.mpr (by decide),
     (wildcard_dispatch sampleManager sampleDevices sampleRequest
        (hostnameParams "*")).2.2.2.2.2.2.2.2.1 _ (by rfl)⟩,
   ⟨((wildcard_dispatch sampleManager sampleDevices sampleRequest
        (hostnameParams "sw1")).2.2.2.2.1 (by decide)).1,
     (wildcard_dispatch sampleManager sampleDevices sampleRequest
        (hostnameParams "sw1")).2.2.2.2.2.2.2.2.1 _ (by rfl)⟩,
   ⟨((wildcard_dispatch sampleManager sampleDevices sampleRequest
        (hostnameParams "sw2")).2.2.2.2.2.2.2.1 (by decide)).1,
     (wildcard_dispatch sampleManager sampleDevices sampleRequest
        (hostnameParams "sw2")).2.2.2.2.2.2.2.2.2 _ (by rfl)⟩⟩

/-! ## The handlers leave the published device set alone -/

/-- C6: none of the seven handlers (`healthCheck`, `getVersion`, `getAFKEnabled`,
`getDeviceOpenConfig`, `getLastReport`, `getLastCompleteReport`,
`getLastSuccessfulReport`) calls `Set` of the devices repository, whatever the request,
its parameters and the state of the repositories, and the published device set is the
same after the handler as before it. -/
theorem handlers_never_call_Set (ep : Endpoint) (m : Manager) (Info : AppInfo)
    (prom : Exec → Request → Exec) (published : DeviceSet) (r : Request) (ps : Params)
    (hep : ep ≠ .prometheusMetrics) :
    (∀ c ∈ (ep.handler m Info prom (Exec.start published) r ps).calls, c.isSet = false) ∧
    (ep.handler m Info prom (Exec.start published) r ps).published = published := by
  cases ep with
  | prometheusMetrics => exact absurd rfl hep
  | getVersion => exact ⟨fun c hc => (by cases hc), rfl⟩
  | healthCheck => exact ⟨fun c hc => (by cases hc), rfl⟩
  | getAFKEnabled =>
    obtain ⟨hc, -, hp⟩ := getAFKEnabled_trace m published r ps
    refine ⟨fun c hmem => ?_, hp⟩
    simp only [Endpoint.handler, hc, List.mem_singleton] at hmem
    subst hmem
    split <;> rfl
  | getDeviceOpenConfig =>
    obtain ⟨hc, -, hp⟩ := getDeviceOpenConfig_trace m published r ps
    refine ⟨fun c hmem => ?_, hp⟩
    simp only [Endpoint.handler, hc, List.mem_singleton] at hmem
    subst hmem
    split <;> rfl
  | getLastReport =>
    obtain ⟨-, hc, hp⟩ := reportOutcome_returned published .GetLastJSON m.reports.GetLastJSON
    simp only [Endpoint.handler, getLastReport_eq, hc, hp, List.mem_singleton]
    exact ⟨fun c hmem => (by subst hmem; rfl), trivial⟩
  | getLastCompleteReport =>
    obtain ⟨-, hc, hp⟩ :=
      reportOutcome_returned published .GetLastCompleteJSON m.reports.GetLastCompleteJSON
    simp only [Endpoint.handler, getLastCompleteReport_eq, hc, hp, List.mem_singleton]
    exact ⟨fun c hmem => (by subst hmem; rfl), trivial⟩
  | getLastSuccessfulReport =>
    obtain ⟨-, hc, hp⟩ :=
      reportOutcome_returned published .GetLastSuccessfulJSON m.reports.GetLastSuccessfulJSON
    simp only [Endpoint.handler, getLastSuccessfulReport_eq, hc, hp, List.mem_singleton]
    exact ⟨fun c hmem => (by subst hmem; rfl), trivial⟩

/-- The wildcard request of `getDeviceOpenConfig` leaves the sample device set
published. -/
theorem handlers_never_call_Set_witness :
    Endpoint.getDeviceOpenConfig ≠ Endpoint.prometheusMetrics ∧
    (∀ c ∈ (Endpoint.getDeviceOpenConfig.handler sampleManager sampleInfo (fun x _ => x)
      (Exec.start sampleDevices) sampleRequest (hostnameParams "*")).calls,
      c.isSet = false) ∧
    (Endpoint.getDeviceOpenConfig.handler sampleManager sampleInfo (fun x _ => x)
      (Exec.start sampleDevices) sampleRequest (hostnameParams "*")).published =
        sampleDevices :=
  ⟨by decide,
    handlers_never_call_Set Endpoint.getDeviceOpenConfig sampleManager sampleInfo
      (fun x _ => x) sampleDevices sampleRequest (hostnameParams "*") (by decide)⟩

/-! ## The route table -/

/-- C7: `Manager.ListenAndServe` registers exactly eight routes, all of them for GET
and with pairwise different paths; the five whose path starts with `/v1/` are wrapped
by the basic-auth wrapper, and `/metrics`, `/api/version` and `/api/health` are
registered without it. -/
theorem route_table :
    ListenAndServe (.ok ()) = .ok registerRoutes ∧
    registerRoutes.length = 8 ∧
    (∀ rt ∈ registerRoutes, rt.method = "GET") ∧
    (registerRoutes.map (fun rt => rt.path)).Nodup ∧
    (∀ rt ∈ registerRoutes, hasPathPrefix "/v1/" rt.path = true → rt.handle.isWrapped = true) ∧
    (registerRoutes.filter (fun rt => hasPathPrefix "/v1/" rt.path)).map
        (fun rt => (rt.path, rt.handle)) =
      [("/v1/devices/:hostname/afk_enabled", .withAuthWrap .getAFKEnabled),
       ("/v1/devices/:hostname/openconfig", .withAuthWrap .getDeviceOpenConfig),
       ("/v1/report/last", .withAuthWrap .getLastReport),
       ("/v1/report/last/complete", .withAuthWrap .getLastCompleteReport),
       ("/v1/report/last/successful", .withAuthWrap .getLastSuccessfulReport)] ∧
    (registerRoutes.filter (fun rt => !rt.handle.isWrapped)).map
        (fun rt => (rt.path, rt.handle)) =
      [("/metrics", .direct .prometheusMetrics),
       ("/api/version", .direct .getVersion),
       ("/api/health", .direct .healthCheck)] := by
  refine ⟨rfl, by decide, by decide, by decide, by decide, by decide, by decide⟩

/-! ## The version endpoint -/

/-- C10 fails on the code at a version string that holds a double quote: `getVersion`
copies it into the body unescaped, and the body is then not a JSON object, although
it is sent as `application/json`; on a version string without such a character the
body is the object with the three members. -/
theorem getVersion_quote_not_json :
    (getVersion quotedInfo (Exec.start []) sampleRequest []).response =
      jsonResponse 200
        "\x7b\"version\": \"1.0\"\", \"build_time\": \"unknown\", \"build_user\": \"unknown\"\x7d" ∧
    Json.decodeStringObject
      (getVersion quotedInfo (Exec.start []) sampleRequest []).response.body = none ∧
    Json.decodeStringObject
      (getVersion sampleInfo (Exec.start []) sampleRequest []).response.body =
        some [("version", sampleInfo.Version), ("build_time", sampleInfo.BuildTime),
          ("build_user", sampleInfo.BuildUser)] := by
  refine ⟨by decide, by decide, by decide⟩

end Router

namespace Metrics

/-! ## The metrics registry -/

/-- C8: `BuildSuccessful` sets `build_status` to 1 and adds exactly one to
`completed_build_total` with `success="true"`; `BuildFailed` sets `build_status` to 0
and adds exactly one to `completed_build_total` with `success="false"`; each leaves
the counter of the other label and `built_devices_number` as they were;
`SetBuiltDevices` leaves `build_status` and both counters as they were. -/
theorem build_metrics_update (r : Registry) (count : Nat) :
    (r.BuildSuccessful.lastBuildStatus = 1 ∧
      r.BuildSuccessful.buildTotal "true" = r.buildTotal "true" + 1 ∧
      r.BuildSuccessful.buildTotal "false" = r.buildTotal "false" ∧
      r.BuildSuccessful.BuiltDevicesNumber = r.BuiltDevicesNumber) ∧
    (r.BuildFailed.lastBuildStatus = 0 ∧
      r.BuildFailed.buildTotal "false" = r.buildTotal "false" + 1 ∧
      r.BuildFailed.buildTotal "true" = r.buildTotal "true" ∧
      r.BuildFailed.BuiltDevicesNumber = r.BuiltDevicesNumber) ∧
    ((r.SetBuiltDevices count).lastBuildStatus = r.lastBuildStatus ∧
      (r.SetBuiltDevices count).buildTotal = r.buildTotal ∧
      (r.SetBuiltDevices count).BuiltDevicesNumber = count) := by
  refine ⟨⟨rfl, ?_, ?_, rfl⟩, ⟨rfl, ?_, ?_, rfl⟩, ⟨rfl, rfl, rfl⟩⟩ <;>
    simp [Registry.BuildSuccessful, Registry.BuildFailed, incLabel]

theorem run_append (r : Registry) (calls : List Call) (c : Call) :
    r.run (calls ++ [c]) = (r.run calls).apply c := by
  simp [Registry.run, List.foldl_append]

theorem lastCompleted_append (calls : List Call) (c : Call) :
    lastCompleted (calls ++ [c]) = if c.isCompleted then some c else lastCompleted calls := by
  unfold lastCompleted
  rw [List.filter_append]
  by_cases hc : c.isCompleted = true
  · simp [hc, List.filter_cons]
  · simp [hc, List.filter_cons]

/-- C9: from a fresh registry and after any finite sequence of calls of
`BuildSuccessful`, `BuildFailed` and `SetBuiltDevices`, the counter with
`success="true"` is the number of `BuildSuccessful` calls, the one with
`success="false"` the number of `BuildFailed` calls, their sum the number of calls that
report a completed build, and, when there is such a call, `build_status` is 1 if the
last of them is `BuildSuccessful` and 0 otherwise. -/
theorem registry_after_calls (calls : List Call) :
    (NewRegistry.run calls).buildTotal "true" = calls.count .BuildSuccessful ∧
    (NewRegistry.run calls).buildTotal "false" = calls.count .BuildFailed ∧
    (NewRegistry.run calls).buildTotal "true" + (NewRegistry.run calls).buildTotal "false" =
      (calls.filter Call.isCompleted).length ∧
    (∀ c : Call, lastCompleted calls = some c →
      ((NewRegistry.run calls).lastBuildStatus = 1 ↔ c = .BuildSuccessful) ∧
      (c ≠ .BuildSuccessful → (NewRegistry.run calls).lastBuildStatus = 0)) := by
  induction calls using List.reverseRecOn with
  | nil =>
    refine ⟨rfl, rfl, rfl, fun c hc => ?_⟩
    simp [lastCompleted] at hc
  | append_singleton calls c ih =>
    obtain ⟨ht, hf, hs, hl⟩ := ih
    rw [run_append, lastCompleted_append]
    cases c with
    | BuildSuccessful =>
      refine ⟨?_, ?_, ?_, ?_⟩
      · simp [Registry.apply, Registry.BuildSuccessful, incLabel, ht, List.count_append]
      · simp [Registry.apply, Registry.BuildSuccessful, incLabel, hf, List.count_append]
      · simp [Registry.apply, Registry.BuildSuccessful, incLabel, List.filter_append,
          Call.isCompleted]
        omega
      · intro c hc
        simp [Call.isCompleted] at hc
        subst hc
        simp [Registry.apply, Registry.BuildSuccessful]
    | BuildFailed =>
      refine ⟨?_, ?_, ?_, ?_⟩
      · simp [Registry.apply, Registry.BuildFailed, incLabel, ht, List.count_append]
      · simp [Registry.apply, Registry.BuildFailed, incLabel, hf, List.count_append]
      · simp [Registry.apply, Registry.BuildFailed, incLabel, List.filter_append,
          Call.isCompleted]
        omega
      · intro c hc
        simp [Call.isCompleted] at hc
        subst hc
        simp [Registry.apply, Registry.BuildFailed]
    | SetBuiltDevices count =>
      refine ⟨?_, ?_, ?_, ?_⟩
      · simp [Registry.apply, Registry.SetBuiltDevices, ht, List.count_append]
      · simp [Registry.apply, Registry.SetBuiltDevices, hf, List.count_append]
      · simp [Registry.apply, Registry.SetBuiltDevices, List.filter_append,
          Call.isCompleted]
        omega
      · intro c hc
        simp [Call.isCompleted] at hc
        simpa [Registry.apply, Registry.SetBuiltDevices] using hl c hc

/-- The registry after two successful builds and a failed one. -/
theorem registry_after_calls_witness :
    lastCompleted [.BuildSuccessful, .SetBuiltDevices 12, .BuildFailed, .BuildSuccessful,
      .SetBuiltDevices 14] = some .BuildSuccessful ∧
    (NewRegistry.run [.BuildSuccessful, .SetBuiltDevices 12, .BuildFailed, .BuildSuccessful,
      .SetBuiltDevices 14]).buildTotal "true" = 2 ∧
    (NewRegistry.run [.BuildSuccessful, .SetBuiltDevices 12, .BuildFailed, .BuildSuccessful,
      .SetBuiltDevices 14]).buildTotal "false" = 1 ∧
    (NewRegistry.run [.BuildSuccessful, .SetBuiltDevices 12, .BuildFailed, .BuildSuccessful,
      .SetBuiltDevices 14]).lastBuildStatus = 1 :=
  have h := registry_after_calls [.BuildSuccessful, .SetBuiltDevices 12, .BuildFailed,
    .BuildSuccessful, .SetBuiltDevices 14]
  ⟨by decide, h.1, h.2.1, ((h.2.2.2 .BuildSuccessful (by decide)).1).mpr rfl⟩

end Metrics

namespace Json

theorem readString_quote (rest : List Char) : readString ('\x22' :: rest) = some ([], rest) := by
  rw [readString.eq_def]
  simp

theorem readString_plain_cons (c : Char) (rest : List Char) (hc : plainChar c = true) :
    readString (c :: rest) =
      match readString rest with
      | some (s, r) => some (c :: s, r)
      | none => none := by
  simp only [plainChar, Bool.and_eq_true, bne_iff_ne, ne_eq, decide_eq_true_eq] at hc
  obtain ⟨⟨h1, h2⟩, h3⟩ := hc
  have h4 : ¬ c.toNat < 32 := by omega
  rw [readString.eq_def]
  simp only [h1, h2, h4, if_false]

theorem readString_plain (s rest : List Char) (hs : ∀ c ∈ s, plainChar c = true) :
    readString (s ++ '\x22' :: rest) = some (s, rest) := by
  induction s with
  | nil => exact readString_quote rest
  | cons c s ih =>
    rw [List.cons_append, readString_plain_cons c _ (hs c (List.mem_cons_self c s)),
      ih (fun d hd => hs d (List.mem_cons_of_mem c hd))]

theorem readMembers_more (fuel : Nat) (k v rest : List Char)
    (hk : ∀ c ∈ k, plainChar c = true) (hv : ∀ c ∈ v, plainChar c = true) :
    readMembers (fuel + 1)
        ('\x22' :: (k ++ '\x22' :: ':' :: ' ' :: '\x22' :: (v ++ '\x22' :: ',' :: rest))) =
      match readMembers fuel rest with
      | some (ms, r) => some ((String.mk k, String.mk v) :: ms, r)
      | none => none := by
  rw [readMembers]
  simp [skipWs, isWs, readString_plain k _ hk, readString_plain v _ hv]

theorem readMembers_last (fuel : Nat) (k v rest : List Char)
    (hk : ∀ c ∈ k, plainChar c = true) (hv : ∀ c ∈ v, plainChar c = true) :
    readMembers (fuel + 1)
        ('\x22' :: (k ++ '\x22' :: ':' :: ' ' :: '\x22' :: (v ++ '\x22' :: '\x7d' :: rest))) =
      some ([(String.mk k, String.mk v)], rest) := by
  rw [readMembers]
  simp [skipWs, isWs, readString_plain k _ hk, readString_plain v _ hv]

theorem readMembers_space (fuel : Nat) (rest : List Char) :
    readMembers fuel (' ' :: rest) = readMembers fuel rest := by
  cases fuel with
  | zero => rfl
  | succ n => rw [readMembers, readMembers]; simp [skipWs, isWs]

/-- An object of three string members, written the way `getVersion` lays it out, reads
back as these three members when keys and values hold plain characters only. -/
theorem decodeStringObject_three (k1 v1 k2 v2 k3 v3 : List Char)
    (hk1 : ∀ c ∈ k1, plainChar c = true) (hv1 : ∀ c ∈ v1, plainChar c = true)
    (hk2 : ∀ c ∈ k2, plainChar c = true) (hv2 : ∀ c ∈ v2, plainChar c = true)
    (hk3 : ∀ c ∈ k3, plainChar c = true) (hv3 : ∀ c ∈ v3, plainChar c = true) :
    decodeStringObject (String.mk ('\x7b' :: '\x22' :: (k1 ++ '\x22' :: ':' :: ' ' :: '\x22' ::
      (v1 ++ '\x22' :: ',' :: ' ' :: '\x22' :: (k2 ++ '\x22' :: ':' :: ' ' :: '\x22' ::
      (v2 ++ '\x22' :: ',' :: ' ' :: '\x22' :: (k3 ++ '\x22' :: ':' :: ' ' :: '\x22' ::
      (v3 ++ ['\x22', '\x7d'])))))))) =
      some [(String.mk k1, String.mk v1), (String.mk k2, String.mk v2),
        (String.mk k3, String.mk v3)] := by
  obtain ⟨n, hn⟩ : ∃ n, ('\x22' :: (k1 ++ '\x22' :: ':' :: ' ' :: '\x22' ::
      (v1 ++ '\x22' :: ',' :: ' ' :: '\x22' :: (k2 ++ '\x22' :: ':' :: ' ' :: '\x22' ::
      (v2 ++ '\x22' :: ',' :: ' ' :: '\x22' :: (k3 ++ '\x22' :: ':' :: ' ' :: '\x22' ::
      (v3 ++ ['\x22', '\x7d']))))))).length = n + 3 :=
    ⟨k1.length + v1.length + k2.length + v2.length + k3.length + v3.length + 20, by
      simp only [List.length_cons, List.length_append, List.length_nil]
      omega⟩
  have hmem : readMembers (n + 3) ('\x22' :: (k1 ++ '\x22' :: ':' :: ' ' :: '\x22' ::
      (v1 ++ '\x22' :: ',' :: ' ' :: '\x22' :: (k2 ++ '\x22' :: ':' :: ' ' :: '\x22' ::
      (v2 ++ '\x22' :: ',' :: ' ' :: '\x22' :: (k3 ++ '\x22' :: ':' :: ' ' :: '\x22' ::
      (v3 ++ ['\x22', '\x7d']))))))) =
      some ([(String.mk k1, String.mk v1), (String.mk k2, String.mk v2),
        (String.mk k3, String.mk v3)], []) := by
    rw [readMembers_more (n + 2) k1 v1 _ hk1 hv1, readMembers_space,
      readMembers_more (n + 1) k2 v2 _ hk2 hv2, readMembers_space]
    have h3 := readMembers_last n k3 v3 [] hk3 hv3
    simp only [List.singleton_append, List.cons_append, List.nil_append] at h3 ⊢
    rw [h3]
  unfold decodeStringObject
  have hq : ('\x22' : Char) ≠ '\x7d' := by decide
  have hw1 : isWs '\x7b' = false := by decide
  have hw2 : isWs '\x22' = false := by decide
  simp [skipWs, hw1, hw2, hq, hn, hmem]

end Json

namespace Router

/-- The body `getVersion` writes, character by character. -/
theorem getVersion_body (Info : AppInfo) (published : DeviceSet) (r : Request)
    (ps : Params) :
    (getVersion Info (Exec.start published) r ps).response =
      jsonResponse 200 (String.mk ('\x7b' :: '\x22' :: ("version".data ++ '\x22' :: ':' :: ' ' ::
        '\x22' :: (Info.Version.data ++ '\x22' :: ',' :: ' ' :: '\x22' :: ("build_time".data ++
        '\x22' :: ':' :: ' ' :: '\x22' :: (Info.BuildTime.data ++ '\x22' :: ',' :: ' ' :: '\x22' ::
        ("build_user".data ++ '\x22' :: ':' :: ' ' :: '\x22' ::
        (Info.BuildUser.data ++ ['\x22', '\x7d'])))))))) := by
  rfl

/-- The version endpoint on build information free of quotes, backslashes and control
characters: status 200, `Content-Type: application/json`, and a body that is the JSON
object of the three members `version`, `build_time` and `build_user`. -/
theorem getVersion_plain (Info : AppInfo) (published : DeviceSet) (r : Request)
    (ps : Params) (hV : Json.plainString Info.Version = true)
    (hT : Json.plainString Info.BuildTime = true)
    (hU : Json.plainString Info.BuildUser = true) :
    (getVersion Info (Exec.start published) r ps).response.status = 200 ∧
    (getVersion Info (Exec.start published) r ps).response.header.Get contentType =
      applicationJSON ∧
    Json.decodeStringObject (getVersion Info (Exec.start published) r ps).response.body =
      some [("version", Info.Version), ("build_time", Info.BuildTime),
        ("build_user", Info.BuildUser)] := by
  rw [getVersion_body]
  refine ⟨rfl, ?_, ?_⟩
  · show (⟨[(contentType, applicationJSON)]⟩ : Header).Get contentType = applicationJSON
    decide
  simp only [Json.plainString, List.all_eq_true] at hV hT hU
  exact Json.decodeStringObject_three "version".data Info.Version.data "build_time".data
    Info.BuildTime.data "build_user".data Info.BuildUser.data (by decide) hV (by decide) hT
    (by decide) hU

end Router
